import Mathlib

/-!
# Verification of the Reef interpreter front-end and evaluator

A shallow embedding, in Lean 4, of the Reef scripting-language pipeline:

* the scanner of `src/reef-core/src/lex/mod.rs` (`Scanner::scan`),
* the recursive-descent parser of `src/reef-core/src/parse.rs`
  (`Parser::parse_all`), and
* the tree-walking evaluator of `src/src/evaluator/evaluator.rs` together
  with the scope model of `src/src/evaluator/types.rs`.

Modelling conventions:

* Rust `f64` is modelled by `ℚ`.  Every numeric value reached by the
  statements proved below is a small integer, where `f64` arithmetic is
  exact, so the rational model agrees with the source on all inputs used.
* A Rust `panic!` (and `Option::unwrap` on `None`) is modelled by an
  explicit failure value; it aborts the computation, as in the source.
  Output printed before the abort stays printed, so the evaluator's panic
  value carries the state reached at the moment of the abort.
* Strings inside parser error payloads (`SyntaxError.message`) embed a
  runtime `Backtrace::capture()` in the source and are therefore not
  modelled; only the variant and the `position` payloads — which are what
  the statements below are about — are kept.
* Loops of the source (`Scanner::scan`, `Parser::parse_all`, the parser's
  mutual recursion, `Evaluator::evaluate_program`) are modelled with an
  explicit fuel argument.  Each statement below either proves the fuel
  sufficient for every input it quantifies over, or quantifies the result
  over all additional fuel.
-/

namespace Reef

/-! ## Token model — `src/reef-syntax/src/common.rs` and `token.rs` -/

/-- `common.rs` `enum ComparisonOperator`. -/
inductive ComparisonOperator
| LessThan
| GreaterThan
| EqualTo
| NotEqualTo
| LessThanOrEqualTo
| GreaterThanOrEqualTo
| And
| Or
deriving DecidableEq, Repr

/-- `common.rs` `enum Boolean`. -/
inductive Boolean
| True
| False
deriving DecidableEq, Repr

/-- `token.rs` `enum Token`.  Constructor names are lower-cased to avoid
clashes with the Lean types of their own payloads. -/
inductive Token
| comment (s : String)
| string (s : String)
| keyword (s : String)
| number (s : String)
| identifier (s : String)
| delimiter (c : Char)
| binaryOperator (c : Char)
| comparisonOperator (op : ComparisonOperator)
| illegal (c : Char)
| equals
| endOfFile
deriving DecidableEq, Repr

/-! ## Scanner — `src/reef-core/src/lex/mod.rs`

The scanner's `current` cursor is used by the source both as an argument to
`chars().nth` and as a byte index for slicing; the two coincide exactly on
ASCII text, and every statement below is about ASCII source text, so the
model uses a single `List Char` index. -/

/-- The keyword set inserted into `Scanner::keywords` in `Scanner::new`. -/
def keywords : List String :=
  ["continue", "struct", "elseif", "return", "typeof", "false", "break",
   "true", "else", "then", "type", "for", "fun", "nil", "not", "and",
   "var", "log", "do", "if", "or"]

/-- `Scanner::is_keyword`. -/
def is_keyword (sym : String) : Bool := keywords.contains sym

/-- The scanner state: the fields of `struct Scanner` that participate in
scanning (the keyword map is the constant `keywords`, the debug level only
gates file output). -/
structure ScanState where
  text : List Char
  current : Nat
  line : Int
  tokens : List Token
deriving Repr

/-- The continuation character class of `Scanner::scan_ident`'s loop:
`is_ascii_alphanumeric` or `'_'`. -/
def isIdentChar (c : Char) : Bool := c.isAlphanum || c = '_'

/-- The character class of `Scanner::scan_number`'s loop:
`is_ascii_digit`, `'_'` or `'.'`. -/
def isNumberChar (c : Char) : Bool := c.isDigit || c = '_' || c = '.'

/-- `Scanner::scan_ident`: consume the maximal run of identifier
characters starting at `current`; emit `Keyword` for a keyword, otherwise
`Identifier`. -/
def scan_ident (s : ScanState) : ScanState :=
  let run := (s.text.drop s.current).takeWhile isIdentChar
  let sym := String.mk run
  { s with current := s.current + run.length,
           tokens := s.tokens ++
             [if is_keyword sym then Token.keyword sym else Token.identifier sym] }

/-- `Scanner::scan_number`: consume the maximal run of digit/`'_'`/`'.'`
characters and emit `Number` holding the unparsed text (underscores and
dots included, exactly as sliced from the source text). -/
def scan_number (s : ScanState) : ScanState :=
  let run := (s.text.drop s.current).takeWhile isNumberChar
  { s with current := s.current + run.length,
           tokens := s.tokens ++ [Token.number (String.mk run)] }

/-- `Scanner::scan_string`: skip the opening quote, consume until the next
quote, skip it, and emit the inner text. -/
def scan_string (s : ScanState) : ScanState :=
  let run := (s.text.drop (s.current + 1)).takeWhile (fun c => c ≠ '"')
  { s with current := s.current + 1 + run.length + 1,
           tokens := s.tokens ++ [Token.string (String.mk run)] }

/-- `Scanner::scan_comment`: called with `current` on the second hyphen;
consume up to (excluding) the next newline, emitting nothing. -/
def scan_comment (s : ScanState) : ScanState :=
  let run := (s.text.drop s.current).takeWhile (fun c => c ≠ '\n')
  { s with current := s.current + run.length }

/-- `Scanner::handle_hyphen`: consume the hyphen; a second hyphen starts a
comment, anything else (including end of input) emits
`BinaryOperator('-')`. -/
def handle_hyphen (s : ScanState) : ScanState :=
  let s' : ScanState := { s with current := s.current + 1 }
  match s'.text.get? s'.current with
  | some '-' => scan_comment s'
  | some _ => { s' with tokens := s'.tokens ++ [Token.binaryOperator '-'] }
  | none => { s' with tokens := s'.tokens ++ [Token.binaryOperator '-'] }

/-- `Scanner::next_token`.  Returns `none` for the
`panic!("Panic: Unrecognised character ...")` arm.  The branch order is
the source's `match` arm order.  (The source pushes
`Token::ComparisonOperator(c)` for `'<'` and `'>'`; the char is rendered
as the corresponding `ComparisonOperator` variant here.) -/
def next_token (s : ScanState) : Option ScanState :=
  match s.text.get? s.current with
  | some c =>
    if c = '\n' then
      some { s with line := s.line + 1, current := s.current + 1 }
    else if c.isAlpha || c = '_' then
      some (scan_ident s)
    else if c.isDigit then
      some (scan_number s)
    else if c = '"' then
      some (scan_string s)
    else if c = '-' then
      some (handle_hyphen s)
    else if c = '+' || c = '*' || c = '/' then
      some { s with tokens := s.tokens ++ [Token.binaryOperator c],
                    current := s.current + 1 }
    else if c = '<' || c = '>' then
      let op := if c = '<' then ComparisonOperator.LessThan
                else ComparisonOperator.GreaterThan
      some { s with tokens := s.tokens ++ [Token.comparisonOperator op],
                    current := s.current + 1 }
    else if c = '=' then
      some { s with tokens := s.tokens ++ [Token.equals],
                    current := s.current + 1 }
    else if c = '.' || c = ',' || c = ';' || c = ':' ||
            c = '{' || c = '}' || c = '(' || c = ')' then
      some { s with tokens := s.tokens ++ [Token.delimiter c],
                    current := s.current + 1 }
    else if c.isWhitespace then
      some { s with current := s.current + 1 }
    else
      none
  | none => some { s with tokens := s.tokens ++ [Token.endOfFile] }

/-- Outcome of running `Scanner::scan`. -/
inductive ScanResult
| ok (tokens : List Token)
| panicked
| fuelOut
deriving DecidableEq, Repr

/-- The loop of `Scanner::scan`: `while self.current < self.text.len()`
invoke `next_token`.  Fuel-indexed; `scan` supplies `text.length`, which
is proved sufficient below because every `next_token` step advances the
cursor. -/
def scanLoop : Nat → ScanState → ScanResult
| 0, s => if s.current < s.text.length then ScanResult.fuelOut else ScanResult.ok s.tokens
| fuel + 1, s =>
  if s.current < s.text.length then
    match next_token s with
    | some s' => scanLoop fuel s'
    | none => ScanResult.panicked
  else ScanResult.ok s.tokens

/-- `Scanner::scan` run from `Scanner::new(text)`'s initial state. -/
def scan (text : List Char) : ScanResult :=
  scanLoop text.length { text := text, current := 0, line := 1, tokens := [] }

/-- The character classes for which `Scanner::next_token` has a
non-panicking arm (the "recognized set"). -/
def recognizedChar (c : Char) : Bool :=
  c = '\n' || c.isAlpha || c = '_' || c.isDigit || c = '"' || c = '-' ||
  c = '+' || c = '*' || c = '/' || c = '<' || c = '>' || c = '=' ||
  c = '.' || c = ',' || c = ';' || c = ':' ||
  c = '{' || c = '}' || c = '(' || c = ')' || c.isWhitespace

/-! ## AST model — `src/reef-syntax/src/ast.rs` -/

/-- `ast.rs` `enum UnaryOperation`. -/
inductive UnaryOperation
| Minus
deriving DecidableEq, Repr

/-- `ast.rs` `enum BinaryExprOperator`. -/
inductive BinaryExprOperator
| Plus
| Minus
| Multiply
| Divide
| Modulus
deriving DecidableEq, Repr

/-- `ast.rs` `enum Expr`.  Rust `f64` literals are modelled by `ℚ`;
`FunctionCall`'s `Vec<FunctionArgument>` (a record holding one `value:
Expr`) is flattened to `List Expr`. -/
inductive Expr
| numberLiteral (n : ℚ)
| stringLiteral (s : String)
| identifier (name : String)
| groupExpression (e : Expr)
| unaryExpression (op : UnaryOperation) (e : Expr)
| boolean (b : Boolean)
| nilLiteral
| comparisonExpression (lhs rhs : Expr) (operator : ComparisonOperator)
| binaryExpression (left_side right_side : Expr) (operator : BinaryExprOperator)
| functionCall (func_name : String) (arguments : List Expr)
deriving Repr

/-- `ast.rs` `enum Stmt`.  `Vec<FunctionParameter>` (a record holding one
`name: String`) is flattened to `List String`. -/
inductive Stmt
| emptyStatement
| blockStatement (stmts : List Stmt)
| expressionStatement (e : Expr)
| logStatement (args : List Expr)
| returnStatement (e : Expr)
| ifStatement (condition : Expr) (body : Stmt)
| forLoop (condition : Expr) (body : Stmt)
| variableDeclaration (name : String) (value : Expr)
| variableReassignment (name : String) (value : Expr)
| functionDeclaration (name : String) (parameters : List String) (body : Stmt)
deriving Repr

/-! ## Number conversion — `create_number_literal` in `parse.rs` -/

/-- Decimal value of a digit list (most significant first). -/
def decimalValue (cs : List Char) : Nat :=
  cs.foldl (fun a c => a * 10 + (c.toNat - '0'.toNat)) 0

/-- Model of Rust `str::parse::<f64>` restricted to the literal shapes
reachable in this program: an optional leading minus followed by digits
and dots.  It fails on an underscore, on more than one dot, and when no
digit is present, exactly as Rust's float parser does on such input.
Values are exact rationals; every literal a statement below evaluates is a
small integer, where `f64` conversion is also exact. -/
def parseF64 (s : String) : Option ℚ :=
  let signed := s.data
  let neg : Bool := signed.head? = some '-'
  let cs := if neg then signed.tail else signed
  if cs.all (fun c => c.isDigit || c = '.') && cs.count '.' ≤ 1 &&
     cs.any (fun c => c.isDigit) then
    let intPart := cs.takeWhile (fun c => c.isDigit)
    let frac := (cs.drop intPart.length).drop 1
    let mag : ℚ := mkRat
      ((decimalValue intPart * 10 ^ frac.length + decimalValue frac : Nat) : Int)
      (10 ^ frac.length)
    some (if neg then -mag else mag)
  else none

/-! ## Parser — `src/reef-core/src/parse.rs` -/

/-- `parse.rs` `enum ParserError`.  The `message: String` payload of
`SyntaxError` embeds a runtime `Backtrace::capture()` in the source and is
not modelled; the `position` payloads are kept. -/
inductive ParserError
| SyntaxError (position : Nat)
| UnknownToken (position : Nat)
| CurrentIndexOutOfBounds (position : Nat)
deriving DecidableEq, Repr

/-- How a parser function can fail to return a value: a `ParserError`
propagated with `?`, a Rust `panic!`/`unwrap` abort, or exhaustion of the
embedding's fuel (an artifact of the model; statements below always
provide sufficient fuel). -/
inductive PFail
| err (e : ParserError)
| panic
| fuelOut
deriving DecidableEq, Repr

/-- Parser state: the `tokens` vector and `current` index of
`struct Parser` (the accumulated `program` is threaded by `parse_all`
itself). -/
structure PState where
  tokens : List Token
  current : Nat
deriving DecidableEq, Repr

/-- `Parser::get_current_token`. -/
def get_current_token (st : PState) : Option Token :=
  if st.current ≥ st.tokens.length then none else st.tokens.get? st.current

/-- `Parser::lookahead`. -/
def lookahead (st : PState) (distance : Nat) : Option Token :=
  if st.current + distance ≥ st.tokens.length then none
  else st.tokens.get? (st.current + distance)

/-- `Parser::advance`. -/
def padvance (st : PState) : PState := { st with current := st.current + 1 }

/-- Do two tokens have the same variant?  Mirrors the source's
`mem::discriminant` comparisons. -/
def sameVariant : Token → Token → Bool
| Token.comment _, Token.comment _ => true
| Token.string _, Token.string _ => true
| Token.keyword _, Token.keyword _ => true
| Token.number _, Token.number _ => true
| Token.identifier _, Token.identifier _ => true
| Token.delimiter _, Token.delimiter _ => true
| Token.binaryOperator _, Token.binaryOperator _ => true
| Token.comparisonOperator _, Token.comparisonOperator _ => true
| Token.illegal _, Token.illegal _ => true
| Token.equals, Token.equals => true
| Token.endOfFile, Token.endOfFile => true
| _, _ => false

/-- `Parser::expect`.  Mirrors the source faithfully, including its two
quirks: (1) at end of stream an error value (a `CurrentIndexOutOfBounds`
for most expected tokens) is constructed by a `match` whose result is
immediately discarded — the source lacks a `return`, so that value never
escapes; (2) the success condition also holds whenever the *expected*
token's variant is `Identifier`, `BinaryOperator` or
`ComparisonOperator`, regardless of the actual token, and then
`token.unwrap()` panics if the stream is exhausted. -/
def expect (expected : Token) (st : PState) : Except PFail (Token × PState) :=
  let st' := padvance st
  let token := get_current_token st'
  if (match token with | some t => t = expected | none => false) ||
     sameVariant expected (Token.identifier "") ||
     sameVariant expected (Token.binaryOperator ' ') ||
     sameVariant expected (Token.comparisonOperator ComparisonOperator.Or) then
    match token with
    | some t => Except.ok (t, st')
    | none => Except.error PFail.panic
  else
    Except.error (PFail.err (ParserError.SyntaxError st'.current))

/-- `create_number_literal` in `parse.rs`: parses the text as `f64`,
panicking on a malformed literal. -/
def create_number_literal (n : String) : Except PFail Expr :=
  match parseF64 n with
  | some v => Except.ok (Expr.numberLiteral v)
  | none => Except.error PFail.panic

/-- `create_string_literal` in `parse.rs`. -/
def create_string_literal (s : String) : Expr := Expr.stringLiteral s

/-- The token classes accepted by the `match` in
`Parser::parse_call_site_arguments`'s loop (anything else breaks the
loop). -/
def startsArgument : Token → Bool
| Token.string _ => true
| Token.number _ => true
| Token.identifier _ => true
| Token.delimiter c => c = '('
| Token.binaryOperator c => c = '-'
| Token.keyword k => k = "true" || k = "false"
| _ => false

mutual

/-- `Parser::next_statement`: statement dispatch on the current token.
(The source wraps every produced statement in `Some`; the `Option` layer
is dropped because no arm produces `None`.) -/
def next_statement : Nat → PState → Except PFail (Stmt × PState)
| 0, _ => Except.error PFail.fuelOut
| fuel + 1, st =>
  match get_current_token st with
  | some (Token.keyword "var") => variable_declaration fuel st
  | some (Token.keyword "log") => log_statement fuel st
  | some (Token.keyword "if") => if_statement fuel st
  | some (Token.delimiter '{') => block_statement fuel st
  | some (Token.keyword "true") => expression_statement fuel st
  | some (Token.keyword "false") => expression_statement fuel st
  | some (Token.string _) => expression_statement fuel st
  | some (Token.number _) => expression_statement fuel st
  | some (Token.binaryOperator '-') => expression_statement fuel st
  | some (Token.delimiter '(') => expression_statement fuel st
  | some (Token.identifier _) =>
    match lookahead st 1 with
    | some Token.equals => variable_reassignment fuel st
    | _ => expression_statement fuel st
  | some (Token.delimiter ';') => Except.ok (Stmt.emptyStatement, padvance st)
  | _ => Except.error (PFail.err (ParserError.UnknownToken st.current))

/-- `Parser::if_statement`. -/
def if_statement : Nat → PState → Except PFail (Stmt × PState)
| 0, _ => Except.error PFail.fuelOut
| fuel + 1, st => do
  let (_, st) ← expect (Token.delimiter '(') st
  let st := padvance st
  let (condition, st) ← expression fuel st
  let (_, st) ← expect (Token.delimiter ')') st
  let (_, st) ← expect (Token.keyword "then") st
  let st := padvance st
  let (body, st) ← block_statement fuel st
  Except.ok (Stmt.ifStatement condition body, st)

/-- `Parser::variable_reassignment`. -/
def variable_reassignment : Nat → PState → Except PFail (Stmt × PState)
| 0, _ => Except.error PFail.fuelOut
| fuel + 1, st =>
  match get_current_token st with
  | some (Token.identifier i) => do
    let (_, st) ← expect Token.equals st
    let st := padvance st
    let (value, st) ← expression fuel st
    let (_, st) ← expect (Token.delimiter ';') st
    Except.ok (Stmt.variableReassignment i value, st)
  | _ => Except.error (PFail.err (ParserError.SyntaxError st.current))

/-- `Parser::expression`, the base expression rule. -/
def expression : Nat → PState → Except PFail (Expr × PState)
| 0, _ => Except.error PFail.fuelOut
| fuel + 1, st =>
  match get_current_token st with
  | some (Token.keyword "true") => Except.ok (Expr.boolean Boolean.True, st)
  | some (Token.keyword "false") => Except.ok (Expr.boolean Boolean.False, st)
  | some (Token.keyword "nil") => Except.ok (Expr.nilLiteral, st)
  | some (Token.delimiter '(') => group_expression fuel st
  | some (Token.string s) => Except.ok (create_string_literal s, st)
  | some (Token.binaryOperator '-') =>
    let st' := padvance st
    match get_current_token st' with
    | some (Token.number _) => do
      let (e, st'') ← expression fuel st'
      Except.ok (Expr.unaryExpression UnaryOperation.Minus e, st'')
    | some (Token.identifier _) => do
      let (e, st'') ← expression fuel st'
      Except.ok (Expr.unaryExpression UnaryOperation.Minus e, st'')
    | some (Token.delimiter '(') => do
      let (e, st'') ← expression fuel st'
      Except.ok (Expr.unaryExpression UnaryOperation.Minus e, st'')
    | _ => Except.error (PFail.err (ParserError.SyntaxError st'.current))
  | some (Token.number n) =>
    match lookahead st 1 with
    | some (Token.binaryOperator _) => binary_expression fuel st
    | some (Token.comparisonOperator _) => comparison_expression fuel st
    | _ => do
      let e ← create_number_literal n
      Except.ok (e, st)
  | some (Token.identifier ident) =>
    match lookahead st 1 with
    | some (Token.binaryOperator _) => binary_expression fuel st
    | _ => Except.ok (Expr.identifier ident, st)
  | _ => Except.error PFail.panic

/-- `Parser::log_statement`. -/
def log_statement : Nat → PState → Except PFail (Stmt × PState)
| 0, _ => Except.error PFail.fuelOut
| fuel + 1, st => do
  let st := padvance st
  let (expressions, st) ← parse_call_site_arguments fuel st
  let (_, st) ← expect (Token.delimiter ';') st
  Except.ok (Stmt.logStatement expressions, st)

/-- The `while let` loop of `Parser::block_statement`: parse statements
until a `'}'` is observed right after one (then consume it and stop), the
stream's physical end is reached (stop silently), or the current token is
exhausted just after a statement (a panic in the source). -/
def block_statement_loop : Nat → PState → Except PFail (List Stmt × PState)
| 0, _ => Except.error PFail.fuelOut
| fuel + 1, st =>
  if st.current < st.tokens.length ∧ get_current_token st ≠ none then do
    let (s, st') ← next_statement fuel st
    match get_current_token st' with
    | some (Token.delimiter '}') => Except.ok ([s], padvance st')
    | none => Except.error PFail.panic
    | _ => do
      let (rest, st'') ← block_statement_loop fuel st'
      Except.ok (s :: rest, st'')
  else Except.ok ([], st)

/-- `Parser::block_statement`: skip the `'{'` and run the loop. -/
def block_statement : Nat → PState → Except PFail (Stmt × PState)
| 0, _ => Except.error PFail.fuelOut
| fuel + 1, st => do
  let st := padvance st
  let (statements, st) ← block_statement_loop fuel st
  Except.ok (Stmt.blockStatement statements, st)

/-- `Parser::parse_call_site_arguments`: collect comma-separated argument
expressions, stopping at the first token that cannot start an argument. -/
def parse_call_site_arguments : Nat → PState → Except PFail (List Expr × PState)
| 0, _ => Except.error PFail.fuelOut
| fuel + 1, st =>
  match get_current_token st with
  | none => Except.ok ([], st)
  | some token =>
    if startsArgument token then do
      let (e, st') ← expression fuel st
      match lookahead st' 1 with
      | some (Token.delimiter ',') => do
        let st'' := padvance (padvance st')
        let (rest, st''') ← parse_call_site_arguments fuel st''
        Except.ok (e :: rest, st''')
      | _ => Except.ok ([e], st')
    else Except.ok ([], st)

/-- `Parser::expression_statement`. -/
def expression_statement : Nat → PState → Except PFail (Stmt × PState)
| 0, _ => Except.error PFail.fuelOut
| fuel + 1, st => do
  let (expr, st) ← expression fuel st
  let (_, st) ← expect (Token.delimiter ';') st
  Except.ok (Stmt.expressionStatement expr, st)

/-- `Parser::group_expression`. -/
def group_expression : Nat → PState → Except PFail (Expr × PState)
| 0, _ => Except.error PFail.fuelOut
| fuel + 1, st => do
  let st := padvance st
  let (inner, st) ← expression fuel st
  let (_, st) ← expect (Token.delimiter ')') st
  Except.ok (Expr.groupExpression inner, st)

/-- `Parser::binary_expression`.  (In the source the `Number` and
`Identifier` left-hand arms perform a `lookahead` whose result is matched
only by a wildcard; the lookahead is dropped here as it has no effect.) -/
def binary_expression : Nat → PState → Except PFail (Expr × PState)
| 0, _ => Except.error PFail.fuelOut
| fuel + 1, st => do
  let (lhs, st) ←
    match get_current_token st with
    | some (Token.keyword "true") =>
      Except.ok ((Expr.boolean Boolean.True, st) : Expr × PState)
    | some (Token.keyword "false") => Except.ok (Expr.boolean Boolean.False, st)
    | some (Token.delimiter '(') => group_expression fuel st
    | some (Token.string s) => Except.ok (create_string_literal s, st)
    | some (Token.binaryOperator '-') =>
      let st' := padvance st
      match get_current_token st' with
      | some (Token.number n) => do
        let e ← create_number_literal ("-" ++ n)
        Except.ok (e, st')
      | _ => Except.error (PFail.err (ParserError.SyntaxError st'.current))
    | some (Token.number n) => do
      let e ← create_number_literal n
      Except.ok (e, st)
    | some (Token.identifier ident) => Except.ok (Expr.identifier ident, st)
    | _ => Except.ok (Expr.nilLiteral, st)
  let (optok, st) ← expect (Token.binaryOperator ' ') st
  let operator ←
    match optok with
    | Token.binaryOperator '+' => Except.ok BinaryExprOperator.Plus
    | Token.binaryOperator '-' => Except.ok BinaryExprOperator.Minus
    | Token.binaryOperator '*' => Except.ok BinaryExprOperator.Multiply
    | Token.binaryOperator '/' => Except.ok BinaryExprOperator.Divide
    | Token.binaryOperator '%' => Except.ok BinaryExprOperator.Modulus
    | Token.binaryOperator _ =>
      Except.error (PFail.err (ParserError.UnknownToken st.current))
    | _ => Except.error (PFail.err (ParserError.SyntaxError st.current))
  let st := padvance st
  let (rhs, st) ← expression fuel st
  Except.ok (Expr.binaryExpression lhs rhs operator, st)

/-- `Parser::comparison_expression`. -/
def comparison_expression : Nat → PState → Except PFail (Expr × PState)
| 0, _ => Except.error PFail.fuelOut
| fuel + 1, st => do
  let (lhs, st) ←
    match get_current_token st with
    | some (Token.keyword "true") =>
      Except.ok ((Expr.boolean Boolean.True, st) : Expr × PState)
    | some (Token.keyword "false") => Except.ok (Expr.boolean Boolean.False, st)
    | some (Token.delimiter '(') => group_expression fuel st
    | some (Token.string s) => Except.ok (create_string_literal s, st)
    | some (Token.binaryOperator '-') =>
      let st' := padvance st
      match get_current_token st' with
      | some (Token.number n) => do
        let e ← create_number_literal ("-" ++ n)
        Except.ok (e, st')
      | _ => Except.error (PFail.err (ParserError.SyntaxError st'.current))
    | some (Token.number n) => do
      let e ← create_number_literal n
      Except.ok (e, st)
    | some (Token.identifier ident) => Except.ok (Expr.identifier ident, st)
    | _ => Except.ok (Expr.nilLiteral, st)
  let (optok, st) ← expect (Token.comparisonOperator ComparisonOperator.Or) st
  let operator ←
    match optok with
    | Token.comparisonOperator op => Except.ok op
    | _ => Except.error (PFail.err (ParserError.SyntaxError st.current))
  let st := padvance st
  let (rhs, st) ← expression fuel st
  Except.ok (Expr.comparisonExpression lhs rhs operator, st)

/-- `Parser::variable_declaration`.  Note the source expects
`Token::BinaryOperator('=')` (not `Token::Equals`) after the name; since
`expect` passes any token whenever the *expected* variant is
`BinaryOperator`, this check accepts every token. -/
def variable_declaration : Nat → PState → Except PFail (Stmt × PState)
| 0, _ => Except.error PFail.fuelOut
| fuel + 1, st => do
  let (t, st) ← expect (Token.identifier "") st
  let name ←
    match t with
    | Token.identifier i => Except.ok i
    | _ => Except.error (PFail.err (ParserError.SyntaxError st.current))
  let (_, st) ← expect (Token.binaryOperator '=') st
  let st := padvance st
  let (value, st) ← expression fuel st
  let (_, st) ← expect (Token.delimiter ';') st
  Except.ok (Stmt.variableDeclaration name value, st)

end

/-- The loop of `Parser::parse_all`, threading the accumulated `program`
vector.  Mirrors the source: on an error the statements parsed so far are
kept (the driver evaluates them regardless). -/
def parse_all_loop : Nat → PState → List Stmt → Except PFail Unit × List Stmt
| 0, st, program =>
  if st.current < st.tokens.length then (Except.error PFail.fuelOut, program)
  else (Except.ok (), program)
| fuel + 1, st, program =>
  if st.current < st.tokens.length then
    match next_statement fuel st with
    | Except.ok (n, st') => parse_all_loop fuel st' (program ++ [n])
    | Except.error e => (Except.error e, program)
  else (Except.ok (), program)

/-- `Parser::parse_all` from `Parser::new(tokens)`'s initial state: the
returned pair is (the `Result`, the parser's `program` vector).  The fuel
bounds both loop iterations and recursion depth; it is generous for every
input a statement below applies this to. -/
def parse_all (tokens : List Token) : Except PFail Unit × List Stmt :=
  parse_all_loop (4 * tokens.length + 16) { tokens := tokens, current := 0 } []

/-! ## Runtime values and scopes — `src/src/evaluator/types.rs` -/

/-- `types.rs` `enum RuntimeType` (`f64` modelled by `ℚ`). -/
inductive RuntimeType
| number (n : ℚ)
| string (s : String)
| boolean (b : Boolean)
| none
| error (msg : String)
deriving DecidableEq, Repr

/-- Rust `Display` (`"{}"`) for `f64`, which every statement below applies
only to integral values, where it prints the integer with no decimal
point; the non-integral rendering here is a placeholder no statement
depends on. -/
def displayF64 (q : ℚ) : String :=
  if q.den = 1 then toString q.num
  else toString q.num ++ "/" ++ toString q.den

/-- The `Display` impl for `RuntimeType` in `types.rs`. -/
def RuntimeType.display : RuntimeType → String
| RuntimeType.none => "None"
| RuntimeType.error msg => "Error: " ++ msg
| RuntimeType.number n => displayF64 n
| RuntimeType.string s => s
| RuntimeType.boolean Boolean.True => "true"
| RuntimeType.boolean Boolean.False => "false"

/-- `types.rs` `struct Scope`: a `HashMap<String, RuntimeType>` (modelled
as an association list; only `contains_key`, `get` and `insert` are used,
so iteration order never matters) and an optional parent link.  The
source's `variables` field is named `vars` (`variables` is reserved in
Lean). -/
inductive Scope
| mk (vars : List (String × RuntimeType)) (parent : Option Scope)

/-- The `variables` field of a `Scope`. -/
def Scope.vars : Scope → List (String × RuntimeType)
| Scope.mk v _ => v

/-- `HashMap::contains_key`. -/
def mapContains (m : List (String × RuntimeType)) (name : String) : Bool :=
  m.any (fun kv => kv.1 = name)

/-- `HashMap::get`. -/
def mapGet (m : List (String × RuntimeType)) (name : String) :
    Option RuntimeType :=
  (m.find? (fun kv => kv.1 = name)).map Prod.snd

/-- `HashMap::insert` (replaces an existing binding, appends a new one). -/
def mapInsert (m : List (String × RuntimeType)) (name : String)
    (v : RuntimeType) : List (String × RuntimeType) :=
  if mapContains m name then
    m.map (fun kv => if kv.1 = name then (name, v) else kv)
  else m ++ [(name, v)]

/-- `Scope::get_variable`: look the name up here, else in the parent
chain; `panic!("No variable called {} exists", name)` at the root. -/
def Scope.get_variable : Scope → String → Except Unit RuntimeType
| Scope.mk vars parent, name =>
  match mapGet vars name with
  | some v => Except.ok v
  | Option.none =>
    match parent with
    | some p => Scope.get_variable p name
    | Option.none => Except.error ()

/-- `Scope::set_variable`: `panic!` if the name already exists in this
scope's own map (the contains check precedes any insertion, so a panic
leaves the map untouched), else insert. -/
def Scope.set_variable : Scope → String → RuntimeType → Except Unit Scope
| Scope.mk vars parent, name, value =>
  if mapContains vars name then Except.error ()
  else Except.ok (Scope.mk (mapInsert vars name value) parent)

/-- `Scope::reassign_variable`: insert if the name exists in this scope's
own map, else `panic!` (again without touching the map). -/
def Scope.reassign_variable : Scope → String → RuntimeType → Except Unit Scope
| Scope.mk vars parent, name, value =>
  if mapContains vars name then
    Except.ok (Scope.mk (mapInsert vars name value) parent)
  else Except.error ()

/-! ## Evaluator — `src/src/evaluator/evaluator.rs` -/

/-- Truncation toward zero, as Rust `%` on `f64` truncates. -/
def ratTrunc (q : ℚ) : ℤ := q.num / q.den

/-- The operator dispatch of `Evaluator::evaluate_binary_expression`.
`ℚ` division by zero yields `0` where `f64` yields an infinity or NaN;
no statement below divides, so the difference is never exercised. -/
def applyBinary (op : BinaryExprOperator) (a b : ℚ) : ℚ :=
  match op with
  | BinaryExprOperator.Plus => a + b
  | BinaryExprOperator.Minus => a - b
  | BinaryExprOperator.Multiply => a * b
  | BinaryExprOperator.Divide => a / b
  | BinaryExprOperator.Modulus => a - b * (ratTrunc (a / b) : ℚ)

/-- The `match`es in the `And`/`Or` arms of
`Evaluator::evaluate_comparison_expression`: both sides must be Booleans,
anything else panics. -/
def asBoolean : RuntimeType → Except Unit Boolean
| RuntimeType.boolean b => Except.ok b
| _ => Except.error ()

/-- `Evaluator::evaluate_expression` (with
`evaluate_binary_expression` and `evaluate_comparison_expression`
inlined at their single call sites).  `Except.error ()` is a `panic!`
via `Evaluator::error`.  Note both operands of a binary or comparison
expression are evaluated before any check on either value. -/
def evaluate_expression (sc : Scope) : Expr → Except Unit RuntimeType
| Expr.binaryExpression left_side right_side operator => do
  let lhs ← evaluate_expression sc left_side
  let rhs ← evaluate_expression sc right_side
  let lhs_n ←
    match lhs with
    | RuntimeType.number n => Except.ok n
    | _ => Except.error ()
  let rhs_n ←
    match rhs with
    | RuntimeType.number n => Except.ok n
    | _ => Except.error ()
  Except.ok (RuntimeType.number (applyBinary operator lhs_n rhs_n))
| Expr.comparisonExpression lhs rhs operator => do
  let lv ← evaluate_expression sc lhs
  let rv ← evaluate_expression sc rhs
  match operator with
  | ComparisonOperator.And => do
    let lb ← asBoolean lv
    let rb ← asBoolean rv
    Except.ok (RuntimeType.boolean
      (if lb = Boolean.True ∧ rb = Boolean.True then Boolean.True
       else Boolean.False))
  | ComparisonOperator.Or => do
    let lb ← asBoolean lv
    let rb ← asBoolean rv
    Except.ok (RuntimeType.boolean
      (if lb = Boolean.True ∨ rb = Boolean.True then Boolean.True
       else Boolean.False))
  | ComparisonOperator.EqualTo =>
    Except.ok (RuntimeType.boolean
      (if lv = rv then Boolean.True else Boolean.False))
  | ComparisonOperator.NotEqualTo =>
    Except.ok (RuntimeType.boolean
      (if lv ≠ rv then Boolean.True else Boolean.False))
  | _ => Except.error ()
| Expr.unaryExpression _ e => do
  let ret ← evaluate_expression sc e
  match ret with
  | RuntimeType.number num => Except.ok (RuntimeType.number (-num))
  | _ => Except.error ()
| Expr.groupExpression e => evaluate_expression sc e
| Expr.boolean b => Except.ok (RuntimeType.boolean b)
| Expr.numberLiteral n => Except.ok (RuntimeType.number n)
| Expr.stringLiteral s => Except.ok (RuntimeType.string s)
| Expr.identifier ident => Scope.get_variable sc ident
| _ => Except.error ()

/-- The string built by `Evaluator::evaluate_log_statement`'s loop: each
argument's textual form, with a single `' '` after every argument except
the last.  A panic while evaluating an argument aborts before anything is
printed. -/
def log_build (sc : Scope) : List Expr → Except Unit String
| [] => Except.ok ""
| [e] => do
  let v ← evaluate_expression sc e
  Except.ok (RuntimeType.display v)
| e :: rest => do
  let v ← evaluate_expression sc e
  let s ← log_build sc rest
  Except.ok (RuntimeType.display v ++ " " ++ s)

/-- Evaluate a list of expressions left to right (used only to phrase
statements below; `log_build` is the source-shaped builder). -/
def eval_args (sc : Scope) : List Expr → Except Unit (List RuntimeType)
| [] => Except.ok []
| e :: rest => do
  let v ← evaluate_expression sc e
  let vs ← eval_args sc rest
  Except.ok (v :: vs)

/-- Evaluator state: the fields of `struct Evaluator`, plus the ordered
lines printed to standard output so far. -/
structure EvalState where
  program : List Stmt
  scope : Scope
  ptr : Nat
  output : List String

/-- `Evaluator::advance`. -/
def eadvance (st : EvalState) : EvalState := { st with ptr := st.ptr + 1 }

/-- Result of evaluating statements: `panic` carries the state (output
printed, scope, cursor) reached at the moment the `panic!` fired — output
printed before an abort stays printed. -/
inductive EvalRes
| ok (s : EvalState)
| panic (s : EvalState)

mutual

/-- `Evaluator::evaluate_statement`, with each `evaluate_*` statement
helper inlined at its single dispatch site.  The final wildcard is the
`Unhandled statement` fatal error (`ReturnStatement`, `ForLoop`,
`FunctionDeclaration`). -/
def evaluate_statement : Stmt → EvalState → EvalRes
| Stmt.expressionStatement expr, st =>
  match evaluate_expression st.scope expr with
  | Except.ok v =>
    EvalRes.ok (eadvance { st with
      output := st.output ++ ["[expr_stmt] " ++ RuntimeType.display v] })
  | Except.error _ => EvalRes.panic st
| Stmt.logStatement args, st =>
  match log_build st.scope args with
  | Except.ok line => EvalRes.ok (eadvance { st with output := st.output ++ [line] })
  | Except.error _ => EvalRes.panic st
| Stmt.ifStatement condition body, st =>
  match evaluate_expression st.scope condition with
  | Except.ok (RuntimeType.boolean Boolean.True) =>
    match body with
    | Stmt.blockStatement statements => evaluate_block_statement statements st
    | _ => EvalRes.panic st
  | Except.ok (RuntimeType.boolean Boolean.False) => EvalRes.ok (eadvance st)
  | Except.ok _ => EvalRes.panic st
  | Except.error _ => EvalRes.panic st
| Stmt.variableDeclaration name value, st =>
  match evaluate_expression st.scope value with
  | Except.ok v =>
    match Scope.set_variable st.scope name v with
    | Except.ok sc' => EvalRes.ok (eadvance { st with scope := sc' })
    | Except.error _ => EvalRes.panic st
  | Except.error _ => EvalRes.panic st
| Stmt.variableReassignment name value, st =>
  match evaluate_expression st.scope value with
  | Except.ok v =>
    match Scope.reassign_variable st.scope name v with
    | Except.ok sc' => EvalRes.ok (eadvance { st with scope := sc' })
    | Except.error _ => EvalRes.panic st
  | Except.error _ => EvalRes.panic st
| Stmt.blockStatement statements, st => evaluate_block_statement statements st
| Stmt.emptyStatement, st => EvalRes.ok (eadvance st)
| _, st => EvalRes.panic st

/-- `Evaluator::evaluate_block_statement`: evaluate each child in order in
the same scope and with the same (shared, top-level) statement cursor. -/
def evaluate_block_statement : List Stmt → EvalState → EvalRes
| [], st => EvalRes.ok st
| s :: rest, st =>
  match evaluate_statement s st with
  | EvalRes.ok st' => evaluate_block_statement rest st'
  | EvalRes.panic st' => EvalRes.panic st'

end

/-- The `while` loop of `Evaluator::evaluate_program`.  Fuel-indexed: the
source loop genuinely diverges on some programs (an `if (true)` with an
empty body never advances `ptr`), so statements below either supply
sufficient fuel or hold for every additional amount of it. -/
def evaluate_program_loop : Nat → EvalState → Option EvalRes
| 0, st =>
  if st.ptr < st.program.length then Option.none else some (EvalRes.ok st)
| fuel + 1, st =>
  if st.ptr < st.program.length then
    match st.program.get? st.ptr with
    | some stmt =>
      match evaluate_statement stmt st with
      | EvalRes.ok st' => evaluate_program_loop fuel st'
      | EvalRes.panic st' => some (EvalRes.panic st')
    | Option.none => evaluate_program_loop fuel st
  else some (EvalRes.ok st)

/-- `Evaluator::evaluate_program` from `Evaluator::new(program)`'s initial
state: root scope (`Scope::new(None)`), cursor 0, nothing printed. -/
def evaluate_program (fuel : Nat) (program : List Stmt) : Option EvalRes :=
  evaluate_program_loop fuel
    { program := program, scope := Scope.mk [] Option.none, ptr := 0,
      output := [] }

/-! ## Helper lemmas -/

@[simp] theorem except_ok_bind {ε : Type u} {α β : Type v} (a : α)
    (f : α → Except ε β) : (Except.ok a >>= f : Except ε β) = f a := rfl

@[simp] theorem except_error_bind {ε : Type u} {α β : Type v} (e : ε)
    (f : α → Except ε β) :
    (Except.error e >>= f : Except ε β) = Except.error e := rfl

/-- Append one printed line to the output and advance the statement
cursor (the shape of every `println!`-then-`advance` statement arm). -/
def printLine (st : EvalState) (line : String) : EvalState :=
  eadvance { st with output := st.output ++ [line] }

theorem intercalate_go_append (s : String) (l : List String) :
    ∀ acc₁ acc₂ : String, String.intercalate.go (acc₁ ++ acc₂) s l =
      acc₁ ++ String.intercalate.go acc₂ s l := by
  induction l with
  | nil => intro acc₁ acc₂; simp [String.intercalate.go]
  | cons c cs ih =>
    intro acc₁ acc₂
    show String.intercalate.go (acc₁ ++ acc₂ ++ s ++ c) s cs = _
    have hre : acc₁ ++ acc₂ ++ s ++ c = acc₁ ++ (acc₂ ++ s ++ c) := by
      simp [String.append_assoc]
    rw [hre, ih]
    rfl

theorem intercalate_space_cons (a b : String) (l : List String) :
    String.intercalate " " (a :: b :: l) =
      a ++ " " ++ String.intercalate " " (b :: l) := by
  show String.intercalate.go (a ++ " " ++ b) " " l = _
  have hre : a ++ " " ++ b = (a ++ " ") ++ b := by rw [String.append_assoc]
  rw [hre, intercalate_go_append]
  rfl

/-- When every argument of a log statement evaluates without a panic, the
string built by `evaluate_log_statement`'s loop is exactly the arguments'
textual forms joined with single spaces. -/
theorem log_build_eq_intercalate (sc : Scope) :
    ∀ (args : List Expr) (vs : List RuntimeType),
      eval_args sc args = Except.ok vs →
      log_build sc args =
        Except.ok (String.intercalate " " (vs.map RuntimeType.display)) := by
  intro args
  induction args with
  | nil =>
    intro vs h
    have hvs : vs = [] := by simpa [eval_args] using h.symm
    subst hvs
    simp [log_build, String.intercalate]
  | cons e rest ih =>
    intro vs h
    cases hev : evaluate_expression sc e with
    | error u => simp [eval_args, hev] at h
    | ok v =>
      cases hra : eval_args sc rest with
      | error u => simp [eval_args, hev, hra] at h
      | ok vs' =>
        have hvs : vs = v :: vs' := by
          have h' := h.symm
          simp only [eval_args, hev, hra, except_ok_bind] at h'
          simpa using h'
        subst hvs
        cases rest with
        | nil =>
          have hvs' : vs' = [] := by simpa [eval_args] using hra.symm
          subst hvs'
          simp [log_build, hev, String.intercalate, String.intercalate.go]
        | cons e' rest' =>
          have hlb := ih vs' hra
          have hne : vs' ≠ [] := by
            intro hcon
            subst hcon
            cases hev' : evaluate_expression sc e' with
            | error u => simp [eval_args, hev'] at hra
            | ok w =>
              cases hra' : eval_args sc rest' with
              | error u => simp [eval_args, hev', hra'] at hra
              | ok ws => simp [eval_args, hev', hra'] at hra
          obtain ⟨v', vs'', rfl⟩ : ∃ v' vs'', vs' = v' :: vs'' := by
            cases vs' with
            | nil => exact absurd rfl hne
            | cons x xs => exact ⟨x, xs, rfl⟩
          simp only [log_build, hev, hlb, List.map_cons, except_ok_bind]
          rw [intercalate_space_cons]

/-! ## The claims -/

/-- **C2** — the claim states that `parse` accepts a `var` statement only
when the token after the identifier is `Equals`, and that any other token
there yields a parse error.  In the source, `variable_declaration` calls
`expect(Token::BinaryOperator('='))` — not `Token::Equals` — and `expect`
succeeds for *any* current token whenever the expected token's variant is
`BinaryOperator` (it only inspects `mem::discriminant(&expected)`).  So
the token sequence of `var x + 5;`, whose third token is
`BinaryOperator('+')`, is accepted as a `VariableDeclaration` with no
error, contradicting the claim; this theorem evaluates the parser at that
failing input. -/
theorem c2_var_equals_position_accepts_any_token :
    parse_all [Token.keyword "var", Token.identifier "x",
      Token.binaryOperator '+', Token.number "5", Token.delimiter ';'] =
    (Except.ok (), [Stmt.variableDeclaration "x" (Expr.numberLiteral 5),
                    Stmt.emptyStatement]) := rfl

/-- **C3** — the claim states that exhausting the token stream in the
middle of a construct makes `parse` return `CurrentIndexOutOfBounds` with
the exhaustion index, and that all three error variants are reachable.
In `Parser::expect` the `match` that builds the end-of-stream error value
(a `CurrentIndexOutOfBounds` for most expected tokens) is a statement
whose result is immediately discarded — a missing `return` — so the
variant is never returned; control falls through to the generic
`SyntaxError` branch instead.  At the failing input `[Keyword "if"]`
(stream exhausted while `if_statement` expects `'('`), parsing returns
`SyntaxError` at position 1, not `CurrentIndexOutOfBounds`. -/
theorem c3_out_of_bounds_variant_unreachable :
    parse_all [Token.keyword "if"] =
    (Except.error (PFail.err (ParserError.SyntaxError 1)), []) := rfl

/-- **C7** — reassigning a name not bound in the scope's own map is a
fatal runtime error, and declaring a name already bound there is a fatal
runtime error; in both cases the panic carries the state unchanged (the
`contains_key` check precedes any insertion), so the scope's bindings are
exactly as before.  (The evaluator's only scope is the parentless root
scope, so the scope's own map is the whole reachable chain.) -/
theorem c7_redeclare_and_unbound_reassign_fatal
    (st : EvalState) (name : String) (value : Expr) (v : RuntimeType)
    (hv : evaluate_expression st.scope value = Except.ok v) :
    (mapContains st.scope.vars name = false →
      evaluate_statement (Stmt.variableReassignment name value) st =
        EvalRes.panic st) ∧
    (mapContains st.scope.vars name = true →
      evaluate_statement (Stmt.variableDeclaration name value) st =
        EvalRes.panic st) := by
  obtain ⟨prog, sc, ptrv, out⟩ := st
  obtain ⟨vs, parent⟩ := sc
  simp only [Scope.vars] at *
  constructor
  · intro hmc
    simp [evaluate_statement, hv, Scope.reassign_variable, hmc]
  · intro hmc
    simp [evaluate_statement, hv, Scope.set_variable, hmc]

/-- Witness state for C7's reassignment half: an empty root scope. -/
def c7StateA : EvalState :=
  { program := [], scope := Scope.mk [] Option.none, ptr := 0, output := [] }

/-- Witness state for C7's declaration half: `"y"` already bound. -/
def c7StateB : EvalState :=
  { program := [], scope := Scope.mk [("y", RuntimeType.number 1)] Option.none,
    ptr := 0, output := [] }

/-- Witness for C7 at concrete inputs: reassigning unbound `"x"` panics
with the state unchanged, and redeclaring bound `"y"` panics with the
state unchanged. -/
theorem c7_witness :
    evaluate_statement (Stmt.variableReassignment "x" (Expr.numberLiteral 5))
      c7StateA = EvalRes.panic c7StateA ∧
    evaluate_statement (Stmt.variableDeclaration "y" (Expr.numberLiteral 5))
      c7StateB = EvalRes.panic c7StateB :=
  ⟨(c7_redeclare_and_unbound_reassign_fatal c7StateA "x" (Expr.numberLiteral 5)
      (RuntimeType.number 5) rfl).1 rfl,
   (c7_redeclare_and_unbound_reassign_fatal c7StateB "y" (Expr.numberLiteral 5)
      (RuntimeType.number 5) rfl).2 rfl⟩

/-- **C8** — a log statement evaluates its argument expressions in order
(`eval_args` is that left-to-right evaluation) and prints one line equal
to their textual forms joined with a single space; with zero arguments it
prints an empty line and is not an error. -/
theorem c8_log_line_is_space_joined_forms
    (st : EvalState) (args : List Expr) (vs : List RuntimeType)
    (h : eval_args st.scope args = Except.ok vs) :
    evaluate_statement (Stmt.logStatement args) st =
      EvalRes.ok
        (printLine st (String.intercalate " " (vs.map RuntimeType.display))) ∧
    evaluate_statement (Stmt.logStatement []) st =
      EvalRes.ok (printLine st "") := by
  constructor
  · have hlb := log_build_eq_intercalate st.scope args vs h
    simp [evaluate_statement, hlb, printLine]
  · simp [evaluate_statement, log_build, printLine, String.intercalate]

/-- Witness state for C8. -/
def c8State : EvalState :=
  { program := [], scope := Scope.mk [] Option.none, ptr := 0, output := [] }

/-- Witness for C8 at a concrete two-argument log statement. -/
theorem c8_witness :
    evaluate_statement
      (Stmt.logStatement [Expr.numberLiteral 1, Expr.stringLiteral "hi"])
      c8State =
      EvalRes.ok (printLine c8State (String.intercalate " "
        ([RuntimeType.number 1, RuntimeType.string "hi"].map
          RuntimeType.display))) ∧
    evaluate_statement (Stmt.logStatement []) c8State =
      EvalRes.ok (printLine c8State "") :=
  c8_log_line_is_space_joined_forms c8State
    [Expr.numberLiteral 1, Expr.stringLiteral "hi"]
    [RuntimeType.number 1, RuntimeType.string "hi"] rfl

/-- **C10** — evaluating a comparison expression with operator `and` or
`or` evaluates both operand expressions before the operator is applied
(the source binds `lhs` and `rhs` to the two evaluations before matching
on the operator), so even when the left operand's value would already
determine the result, a fatal error from the right operand still aborts
evaluation. -/
theorem c10_and_or_evaluate_both_sides
    (sc : Scope) (lhs rhs : Expr) (op : ComparisonOperator) (v : RuntimeType)
    (hop : op = ComparisonOperator.And ∨ op = ComparisonOperator.Or)
    (hl : evaluate_expression sc lhs = Except.ok v)
    (hr : evaluate_expression sc rhs = Except.error ()) :
    evaluate_expression sc (Expr.comparisonExpression lhs rhs op) =
      Except.error () := by
  rcases hop with rfl | rfl <;> simp [evaluate_expression, hl, hr]

/-- Witness for C10: `false and x` with `x` unbound aborts even though the
left operand is already `false`. -/
theorem c10_witness :
    evaluate_expression (Scope.mk [] Option.none)
      (Expr.comparisonExpression (Expr.boolean Boolean.False)
        (Expr.identifier "x") ComparisonOperator.And) = Except.error () :=
  c10_and_or_evaluate_both_sides (Scope.mk [] Option.none)
    (Expr.boolean Boolean.False) (Expr.identifier "x")
    ComparisonOperator.And (RuntimeType.boolean Boolean.False)
    (Or.inl rfl) rfl rfl

/-! ### C5: the shared statement cursor of the evaluator -/

/-- `log "<s>";` as an AST statement. -/
def logStmt (s : String) : Stmt := Stmt.logStatement [Expr.stringLiteral s]

/-- `if (true) then { <body> }` as an AST statement. -/
def ifTrue (body : List Stmt) : Stmt :=
  Stmt.ifStatement (Expr.boolean Boolean.True) (Stmt.blockStatement body)

/-- The program named by the claim:
`[IfStatement(true){ log A; }, LogStatement(B)]`. -/
def c5Example : List Stmt := [ifTrue [logStmt "A"], logStmt "B"]

/-- Where evaluating `c5Example` actually ends: both lines printed. -/
def c5ExampleFinal : EvalState :=
  { program := c5Example, scope := Scope.mk [] Option.none, ptr := 2,
    output := ["A", "B"] }

/-- A program whose if-body advances the cursor twice:
`[IfStatement(true){ log A; log B; }, LogStatement(C)]`. -/
def c5Amended : List Stmt := [ifTrue [logStmt "A", logStmt "B"], logStmt "C"]

/-- Where evaluating `c5Amended` ends: the two body statements moved the
shared cursor to 2, past `LogStatement(C)`, which is never executed. -/
def c5AmendedFinal : EvalState :=
  { program := c5Amended, scope := Scope.mk [] Option.none, ptr := 2,
    output := ["A", "B"] }

/-- Witness state for C5: an empty root evaluator state. -/
def c5State : EvalState :=
  { program := [], scope := Scope.mk [] Option.none, ptr := 0, output := [] }

/-- **C5** (counterexample) — for the claim's own example program
`[IfStatement(true){ log A; }, LogStatement(B)]`, the statement after the
if statement IS executed: the body's single advancing statement moves the
shared cursor exactly past the if, so evaluation terminates having
printed both `A` and `B`, contradicting the claim's "never executed". -/
theorem c5_counterexample_following_statement_runs :
    evaluate_program 4 c5Example = some (EvalRes.ok c5ExampleFinal) := rfl

/-- **C5** (amended) — evaluating an `IfStatement` whose condition is true
does not itself advance the evaluator's statement cursor (it dispatches
straight into the body's statement list with the same state, whose
advancing statements increment the shared top-level cursor); consequently
for some programs — e.g. `[IfStatement(true){ log A; log B; },
LogStatement(C)]`, whose body advances the cursor twice — a top-level
statement that follows the if statement is never executed (evaluation
ends with output `["A", "B"]`; no `C` line). -/
theorem c5_if_true_shares_cursor_with_body
    (condition : Expr) (ss : List Stmt) (st : EvalState)
    (h : evaluate_expression st.scope condition =
      Except.ok (RuntimeType.boolean Boolean.True)) :
    evaluate_statement (Stmt.ifStatement condition (Stmt.blockStatement ss)) st =
      evaluate_block_statement ss st ∧
    evaluate_program 4 c5Amended = some (EvalRes.ok c5AmendedFinal) := by
  constructor
  · simp [evaluate_statement, h]
  · rfl

/-- Witness for C5's amended statement at a concrete true condition and
empty body. -/
theorem c5_witness :
    evaluate_statement (Stmt.ifStatement (Expr.boolean Boolean.True)
      (Stmt.blockStatement [])) c5State =
      evaluate_block_statement [] c5State ∧
    evaluate_program 4 c5Amended = some (EvalRes.ok c5AmendedFinal) :=
  c5_if_true_shares_cursor_with_body (Expr.boolean Boolean.True) [] c5State rfl

/-! ### C6: `if (true) then { log 1; }` end to end -/

def c6TrueSource : String := "if (true) then { log 1; }"

def c6FalseSource : String := "if (false) then { log 1; }"

/-- The scan of `c6TrueSource` (no trailing `EndOfFile`; see C1). -/
def c6TrueTokens : List Token :=
  [Token.keyword "if", Token.delimiter '(', Token.keyword "true",
   Token.delimiter ')', Token.keyword "then", Token.delimiter '{',
   Token.keyword "log", Token.number "1", Token.delimiter ';',
   Token.delimiter '}']

/-- The scan of `c6FalseSource`. -/
def c6FalseTokens : List Token :=
  [Token.keyword "if", Token.delimiter '(', Token.keyword "false",
   Token.delimiter ')', Token.keyword "then", Token.delimiter '{',
   Token.keyword "log", Token.number "1", Token.delimiter ';',
   Token.delimiter '}']

/-- The parse of `c6TrueTokens`: one if statement (the block keeps an
`EmptyStatement` for the `';'` the parser re-reads after the log). -/
def c6TrueProgram : List Stmt :=
  [Stmt.ifStatement (Expr.boolean Boolean.True)
    (Stmt.blockStatement [Stmt.logStatement [Expr.numberLiteral 1],
      Stmt.emptyStatement])]

/-- The parse of `c6FalseTokens`. -/
def c6FalseProgram : List Stmt :=
  [Stmt.ifStatement (Expr.boolean Boolean.False)
    (Stmt.blockStatement [Stmt.logStatement [Expr.numberLiteral 1],
      Stmt.emptyStatement])]

/-- Final state of the true run: exactly the line `1` printed. -/
def c6TrueFinal : EvalState :=
  { program := c6TrueProgram, scope := Scope.mk [] Option.none, ptr := 2,
    output := ["1"] }

/-- Final state of the false run: nothing printed. -/
def c6FalseFinal : EvalState :=
  { program := c6FalseProgram, scope := Scope.mk [] Option.none, ptr := 1,
    output := [] }

/-- **C6** — scanning, parsing and evaluating
`if (true) then { log 1; }` prints exactly the line `1`, and the same for
`if (false) then { log 1; }` prints nothing, for every sufficient fuel. -/
theorem c6_if_true_prints_one_if_false_prints_nothing : ∀ fuel : Nat,
    scan c6TrueSource.data = ScanResult.ok c6TrueTokens ∧
    parse_all c6TrueTokens = (Except.ok (), c6TrueProgram) ∧
    evaluate_program (fuel + 2) c6TrueProgram = some (EvalRes.ok c6TrueFinal) ∧
    scan c6FalseSource.data = ScanResult.ok c6FalseTokens ∧
    parse_all c6FalseTokens = (Except.ok (), c6FalseProgram) ∧
    evaluate_program (fuel + 2) c6FalseProgram =
      some (EvalRes.ok c6FalseFinal) :=
  fun _fuel => ⟨rfl, rfl, rfl, rfl, rfl, rfl⟩

/-! ### C9: right-nested, precedence-free binary expressions -/

/-- The operator mapping applied by `binary_expression` to the
`BinaryOperator` char it matched (`'%'` maps to `Modulus`; other chars
take the source's `UnknownToken` branch and never reach this mapping, so
the catch-all here is never consulted by a statement below). -/
def binOpOfChar : Char → BinaryExprOperator
| '+' => BinaryExprOperator.Plus
| '-' => BinaryExprOperator.Minus
| '*' => BinaryExprOperator.Multiply
| '/' => BinaryExprOperator.Divide
| _ => BinaryExprOperator.Modulus

/-- `expression` on a number token whose successor is a binary operator
defers wholesale to `binary_expression`. -/
theorem expression_dispatch_binary (fuel : Nat) (st : PState) (n : String)
    (c : Char) (hget : get_current_token st = some (Token.number n))
    (hlook : lookahead st 1 = some (Token.binaryOperator c)) :
    expression (fuel + 1) st = binary_expression fuel st := by
  rw [expression]
  simp only [hget, hlook]

/-- `binary_expression` with a number left-hand side and one of the four
scanner-producible operator chars: the left side and operator are fixed,
and the right side is whatever `expression` makes of the remaining
tokens, two positions further on. -/
theorem binary_expression_number_lhs (fuel : Nat) (st : PState) (n : String)
    (v : ℚ) (c : Char)
    (hget : get_current_token st = some (Token.number n))
    (hp : parseF64 n = some v)
    (hop : get_current_token (padvance st) = some (Token.binaryOperator c))
    (hc : c ∈ ['+', '-', '*', '/']) :
    binary_expression (fuel + 1) st =
      match expression fuel (padvance (padvance st)) with
      | Except.ok (rhs, st') =>
        Except.ok (Expr.binaryExpression (Expr.numberLiteral v) rhs
          (binOpOfChar c), st')
      | Except.error e => Except.error e := by
  rw [binary_expression]
  cases hres : expression fuel (padvance (padvance st)) with
  | ok p =>
    obtain ⟨rhs, st'⟩ := p
    fin_cases hc <;>
      simp [hget, hop, hres, expect, sameVariant, create_number_literal,
        hp, except_ok_bind, except_error_bind, binOpOfChar]
  | error e =>
    fin_cases hc <;>
      simp [hget, hop, hres, expect, sameVariant, create_number_literal,
        hp, except_ok_bind, except_error_bind, binOpOfChar]

/-- `expression` on a number token whose successor is a delimiter yields
the parsed literal without advancing. -/
theorem expression_number_before_delimiter (fuel : Nat) (st : PState)
    (n : String) (v : ℚ) (d : Char)
    (hget : get_current_token st = some (Token.number n))
    (hp : parseF64 n = some v)
    (hlook : lookahead st 1 = some (Token.delimiter d)) :
    expression (fuel + 1) st = Except.ok (Expr.numberLiteral v, st) := by
  rw [expression]
  simp only [hget, hlook, create_number_literal, hp, except_ok_bind]

/-- The token sequence `number op1 number op2 number ;`. -/
def c9Tokens (op1 op2 : Char) (n1 n2 n3 : String) : List Token :=
  [Token.number n1, Token.binaryOperator op1, Token.number n2,
   Token.binaryOperator op2, Token.number n3, Token.delimiter ';']

/-- **C9** — for every token sequence `number op1 number op2 number` (both
operators drawn from the scanner's binary-operator set), the expression
parser produces the right-nested tree `BinaryExpression(n1, op1,
BinaryExpression(n2, op2, n3))`, regardless of which operators they are —
no precedence table is consulted. -/
theorem c9_right_nested_regardless_of_precedence
    (op1 op2 : Char) (n1 n2 n3 : String) (v1 v2 v3 : ℚ)
    (h1 : op1 ∈ ['+', '-', '*', '/']) (h2 : op2 ∈ ['+', '-', '*', '/'])
    (p1 : parseF64 n1 = some v1) (p2 : parseF64 n2 = some v2)
    (p3 : parseF64 n3 = some v3) :
    expression 8 { tokens := c9Tokens op1 op2 n1 n2 n3, current := 0 } =
      Except.ok (Expr.binaryExpression (Expr.numberLiteral v1)
        (Expr.binaryExpression (Expr.numberLiteral v2) (Expr.numberLiteral v3)
          (binOpOfChar op2)) (binOpOfChar op1),
        { tokens := c9Tokens op1 op2 n1 n2 n3, current := 4 }) := by
  have e1 := expression_dispatch_binary 7
    { tokens := c9Tokens op1 op2 n1 n2 n3, current := 0 } n1 op1 rfl rfl
  have e2 := binary_expression_number_lhs 6
    { tokens := c9Tokens op1 op2 n1 n2 n3, current := 0 } n1 v1 op1 rfl p1 rfl h1
  have e3 := expression_dispatch_binary 5
    (padvance (padvance { tokens := c9Tokens op1 op2 n1 n2 n3, current := 0 }))
    n2 op2 rfl rfl
  have e4 := binary_expression_number_lhs 4
    (padvance (padvance { tokens := c9Tokens op1 op2 n1 n2 n3, current := 0 }))
    n2 v2 op2 rfl p2 rfl h2
  have e5 := expression_number_before_delimiter 3
    (padvance (padvance (padvance (padvance
      { tokens := c9Tokens op1 op2 n1 n2 n3, current := 0 })))) n3 v3 ';'
    rfl p3 rfl
  rw [e1, e2, e3, e4, e5]
  rfl

/-- Witness for C9 at `1 * 2 + 3`, which conventional precedence would
group as `(1 * 2) + 3` but the parser right-nests as `1 * (2 + 3)`. -/
theorem c9_witness :
    expression 8 { tokens := c9Tokens '*' '+' "1" "2" "3", current := 0 } =
      Except.ok (Expr.binaryExpression (Expr.numberLiteral 1)
        (Expr.binaryExpression (Expr.numberLiteral 2) (Expr.numberLiteral 3)
          (binOpOfChar '+')) (binOpOfChar '*'),
        { tokens := c9Tokens '*' '+' "1" "2" "3", current := 4 }) :=
  c9_right_nested_regardless_of_precedence '*' '+' "1" "2" "3" 1 2 3
    (by decide) (by decide) (by decide) (by decide) (by decide)

/-! ### C4: underscores in numeric literals -/

/-- Once the cursor is at or past the end of the text, `scan`'s loop stops
at once with the tokens accumulated so far. -/
theorem scanLoop_done (fuel : Nat) (s : ScanState)
    (h : s.text.length ≤ s.current) :
    scanLoop fuel s = ScanResult.ok s.tokens := by
  cases fuel <;> simp [scanLoop, Nat.not_lt.mpr h]

/-- One iteration of `scan`'s loop. -/
theorem scanLoop_step (fuel : Nat) (s s' : ScanState)
    (h : s.current < s.text.length) (hnt : next_token s = some s') :
    scanLoop (fuel + 1) s = scanLoop fuel s' := by
  rw [scanLoop, if_pos h, hnt]

theorem isDigit_ne_newline {c : Char} (h : c.isDigit = true) : c ≠ '\n' := by
  intro hcon; subst hcon; exact absurd h (by decide)

theorem isDigit_ne_underscore {c : Char} (h : c.isDigit = true) : c ≠ '_' := by
  intro hcon; subst hcon; exact absurd h (by decide)

theorem isDigit_ne_minus {c : Char} (h : c.isDigit = true) : c ≠ '-' := by
  intro hcon; subst hcon; exact absurd h (by decide)

theorem isDigit_not_alpha {c : Char} (h : c.isDigit = true) :
    c.isAlpha = false := by
  simp only [Char.isDigit, Char.isAlpha, Char.isUpper, Char.isLower] at *
  simp only [Bool.and_eq_true, decide_eq_true_eq] at h
  obtain ⟨h1, h2⟩ := h
  simp only [Bool.or_eq_false_iff, Bool.and_eq_false_iff]
  refine ⟨Or.inl ?_, Or.inl ?_⟩ <;>
  · simp only [decide_eq_false_iff_not]
    intro hle
    have k1 := h2
    have k2 : (_ : UInt32) ≤ _ := hle
    simp only [UInt32.le_def, Fin.le_def, BitVec.le_def] at k1 k2
    norm_num at k1 k2
    omega

/-- `next_token` on a digit defers to `scan_number`. -/
theorem next_token_digit (s : ScanState) (c : Char)
    (hget : s.text.get? s.current = some c) (hd : c.isDigit = true) :
    next_token s = some (scan_number s) := by
  unfold next_token
  rw [hget]
  simp [isDigit_ne_newline hd, isDigit_not_alpha hd,
    isDigit_ne_underscore hd, hd]

/-- A text that begins with a digit and consists entirely of number
characters is scanned as exactly one `Number` token holding the whole,
unmodified text. -/
theorem scan_single_number_token (c : Char) (rest : List Char)
    (hd : c.isDigit = true)
    (hall : ∀ ch ∈ c :: rest, isNumberChar ch = true) :
    scan (c :: rest) = ScanResult.ok [Token.number (String.mk (c :: rest))] := by
  have hrun : (c :: rest).takeWhile isNumberChar = c :: rest :=
    List.takeWhile_eq_self_iff.mpr hall
  have hsn : scan_number ⟨c :: rest, 0, 1, []⟩ =
      ⟨c :: rest, (c :: rest).length, 1,
        [Token.number (String.mk (c :: rest))]⟩ := by
    unfold scan_number
    simp [hrun]
  unfold scan
  rw [List.length_cons, scanLoop_step rest.length ⟨c :: rest, 0, 1, []⟩ _
    (by simp) (next_token_digit _ c rfl hd), hsn, scanLoop_done]
  simp

/-- The `f64` conversion fails on any digit-headed literal containing an
underscore: Rust's float parser does not accept `_` separators, so
`create_number_literal` panics. -/
theorem create_number_literal_underscore (c : Char) (rest : List Char)
    (hd : c.isDigit = true) (hu : '_' ∈ rest) :
    create_number_literal (String.mk (c :: rest)) =
      Except.error PFail.panic := by
  have hprop : ¬ ∀ x ∈ rest, x.isDigit = true ∨ x = '.' := by
    intro hcon
    have h_ := hcon '_' hu
    simp at h_
  unfold create_number_literal parseF64
  simp [isDigit_ne_minus hd, hprop]

/-- **C4** (counterexample) — scanning the literal `1_000` emits a Number
token whose text still contains the underscore, not the
underscore-stripped text the claim describes. -/
theorem c4_counterexample_underscore_in_token_text :
    scan "1_000".data = ScanResult.ok [Token.number "1_000"] ∧
    Token.number "1_000" ≠ Token.number "1000" := ⟨rfl, by decide⟩

/-- **C4** (amended) — for every numeric literal containing underscore
characters — any maximal run of digits, underscores and dots beginning
with a digit, exactly what `scan_number` consumes, with at least one
`'_'` anywhere in it — scan emits a Number token whose text is the
literal with the underscores retained (`scan_number` slices the source
text without modification), and the deferred float conversion
(`create_number_literal`) then fails fatally on that text instead of
seeing only digits and dots. -/
theorem c4_number_token_keeps_underscores
    (c : Char) (rest : List Char) (hd : c.isDigit = true)
    (hall : ∀ ch ∈ c :: rest, isNumberChar ch = true)
    (hu : '_' ∈ c :: rest) :
    scan (c :: rest) = ScanResult.ok [Token.number (String.mk (c :: rest))] ∧
    create_number_literal (String.mk (c :: rest)) =
      Except.error PFail.panic := by
  have hu' : '_' ∈ rest := by
    rcases List.mem_cons.mp hu with hc | h
    · exact absurd hc.symm (isDigit_ne_underscore hd)
    · exact h
  exact ⟨scan_single_number_token c rest hd hall,
    create_number_literal_underscore c rest hd hu'⟩

/-- Witness for C4's amended statement at the literal `1_0_0.5`, which
has several underscores and a dot. -/
theorem c4_witness :
    scan ('1' :: ['_', '0', '_', '0', '.', '5']) =
      ScanResult.ok
        [Token.number (String.mk ('1' :: ['_', '0', '_', '0', '.', '5']))] ∧
    create_number_literal (String.mk ('1' :: ['_', '0', '_', '0', '.', '5'])) =
      Except.error PFail.panic :=
  c4_number_token_keeps_underscores '1' ['_', '0', '_', '0', '.', '5']
    (by decide) (by decide) (by decide)

/-! ### C1: scan termination and the missing EndOfFile -/

/-- `l.drop n` starts with the element at index `n`. -/
theorem drop_cons_of_get? {l : List Char} {n : Nat} {c : Char}
    (h : l.get? n = some c) : l.drop n = c :: l.drop (n + 1) := by
  have hn : n < l.length := (List.get?_eq_some.mp h).1
  have hg : l[n] = c := by
    have := (List.get?_eq_some.mp h).2
    simpa using this
  rw [List.drop_eq_getElem_cons hn, hg]

/-- A maximal run starting at a character satisfying the predicate is
nonempty. -/
theorem takeWhile_pos {l : List Char} {n : Nat} {c : Char} {p : Char → Bool}
    (h : l.get? n = some c) (hp : p c = true) :
    0 < ((l.drop n).takeWhile p).length := by
  rw [drop_cons_of_get? h]
  simp [List.takeWhile_cons, hp]

/-- Every in-bounds `next_token` step on a recognized character succeeds,
leaves the text unchanged, strictly advances the cursor, and appends only
tokens other than `EndOfFile` (the `EndOfFile` push lives in the
out-of-bounds branch alone). -/
theorem next_token_progress (s : ScanState) (c : Char)
    (hget : s.text.get? s.current = some c)
    (hrec : recognizedChar c = true) :
    ∃ s', next_token s = some s' ∧ s'.text = s.text ∧
      s.current < s'.current ∧
      ∃ new, s'.tokens = s.tokens ++ new ∧ Token.endOfFile ∉ new := by
  simp only [next_token, hget]
  by_cases h1 : c = '\n'
  · rw [if_pos h1]
    exact ⟨_, rfl, rfl, Nat.lt_succ_self _, [], by simp, by simp⟩
  rw [if_neg h1]
  by_cases h2 : (c.isAlpha || c = '_') = true
  · rw [if_pos h2]
    refine ⟨_, rfl, rfl, ?_, [_], rfl, ?_⟩
    · show s.current < s.current + _
      have hid : isIdentChar c = true := by
        simp only [isIdentChar, Char.isAlphanum]
        rcases Bool.or_eq_true_iff.mp h2 with ha | ha
        · simp [ha]
        · simp only [decide_eq_true_eq] at ha
          simp [ha]
      have := takeWhile_pos (p := isIdentChar) hget hid
      omega
    · simp only [List.mem_singleton]
      intro hcon
      split at hcon <;> exact Token.noConfusion hcon
  rw [if_neg h2]
  by_cases h3 : c.isDigit = true
  · rw [if_pos h3]
    refine ⟨_, rfl, rfl, ?_, [_], rfl, by simp⟩
    show s.current < s.current + _
    have hin : isNumberChar c = true := by simp [isNumberChar, h3]
    have := takeWhile_pos (p := isNumberChar) hget hin
    omega
  rw [if_neg h3]
  by_cases h4 : c = '"'
  · rw [if_pos h4]
    refine ⟨_, rfl, rfl, ?_, [_], rfl, by simp⟩
    simp only [scan_string]
    omega
  rw [if_neg h4]
  by_cases h5 : c = '-'
  · rw [if_pos h5]
    cases hnext : s.text.get? (s.current + 1) with
    | some c' =>
      by_cases hc' : c' = '-'
      · subst hc'
        have hh : handle_hyphen s =
            scan_comment { s with current := s.current + 1 } := by
          simp only [handle_hyphen, hnext]
        rw [hh]
        exact ⟨_, rfl, rfl, by simp only [scan_comment]; omega, [],
          by simp [scan_comment], by simp⟩
      · have hh : handle_hyphen s =
            { s with current := s.current + 1,
                     tokens := s.tokens ++ [Token.binaryOperator '-'] } := by
          simp only [handle_hyphen, hnext]
        rw [hh]
        exact ⟨_, rfl, rfl, Nat.lt_succ_self _,
          [Token.binaryOperator '-'], rfl, by simp⟩
    | none =>
      have hh : handle_hyphen s =
          { s with current := s.current + 1,
                   tokens := s.tokens ++ [Token.binaryOperator '-'] } := by
        simp only [handle_hyphen, hnext]
      rw [hh]
      exact ⟨_, rfl, rfl, Nat.lt_succ_self _,
        [Token.binaryOperator '-'], rfl, by simp⟩
  rw [if_neg h5]
  by_cases h6 : (c = '+' || c = '*' || c = '/') = true
  · rw [if_pos h6]
    exact ⟨_, rfl, rfl, Nat.lt_succ_self _,
      [Token.binaryOperator c], rfl, by simp⟩
  rw [if_neg h6]
  by_cases h7 : (c = '<' || c = '>') = true
  · rw [if_pos h7]
    exact ⟨_, rfl, rfl, Nat.lt_succ_self _, [_], rfl, by simp⟩
  rw [if_neg h7]
  by_cases h8 : c = '='
  · rw [if_pos h8]
    exact ⟨_, rfl, rfl, Nat.lt_succ_self _, [Token.equals], rfl, by simp⟩
  rw [if_neg h8]
  by_cases h9 : (c = '.' || c = ',' || c = ';' || c = ':' ||
      c = '{' || c = '}' || c = '(' || c = ')') = true
  · rw [if_pos h9]
    exact ⟨_, rfl, rfl, Nat.lt_succ_self _, [Token.delimiter c], rfl, by simp⟩
  rw [if_neg h9]
  by_cases h10 : c.isWhitespace = true
  · rw [if_pos h10]
    exact ⟨_, rfl, rfl, Nat.lt_succ_self _, [], by simp, by simp⟩
  rw [if_neg h10]
  exfalso
  simp only [recognizedChar, Bool.or_eq_true_iff, decide_eq_true_eq] at hrec
  simp only [Bool.or_eq_true_iff, decide_eq_true_eq, not_or] at h2 h6 h7 h9
  tauto


/-- With fuel at least the remaining text length, the scan loop runs to
completion on recognized text, appending tokens none of which is
`EndOfFile`. -/
theorem scanLoop_total : ∀ (fuel : Nat) (s : ScanState),
    (∀ ch ∈ s.text, recognizedChar ch = true) →
    s.text.length - s.current ≤ fuel →
    ∃ new, scanLoop fuel s = ScanResult.ok (s.tokens ++ new) ∧
      Token.endOfFile ∉ new := by
  intro fuel
  induction fuel with
  | zero =>
    intro s hrec hf
    have hn : ¬ s.current < s.text.length := by omega
    exact ⟨[], by simp [scanLoop, hn], by simp⟩
  | succ fuel ih =>
    intro s hrec hf
    by_cases hlt : s.current < s.text.length
    · obtain ⟨c, hget⟩ : ∃ c, s.text.get? s.current = some c :=
        ⟨_, List.get?_eq_get hlt⟩
      have hcmem : c ∈ s.text := List.get?_mem hget
      obtain ⟨s', hnt, htext, hcur, new1, htok, hno1⟩ :=
        next_token_progress s c hget (hrec c hcmem)
      have hrec' : ∀ ch ∈ s'.text, recognizedChar ch = true := by
        rw [htext]; exact hrec
      have hf' : s'.text.length - s'.current ≤ fuel := by
        rw [htext]; omega
      obtain ⟨new2, hloop, hno2⟩ := ih s' hrec' hf'
      refine ⟨new1 ++ new2, ?_, ?_⟩
      · rw [scanLoop_step fuel s s' hlt hnt, hloop, htok, List.append_assoc]
      · intro hcon
        rcases List.mem_append.mp hcon with hmem | hmem
        exacts [hno1 hmem, hno2 hmem]
    · exact ⟨[], by simp [scanLoop, hlt], by simp⟩

/-- **C1** (counterexample) — `'a'` is in the recognized set, yet scanning
`"a"` terminates with `[Identifier "a"]`: the last token of the produced
sequence is not `EndOfFile`. -/
theorem c1_counterexample_no_trailing_eof :
    recognizedChar 'a' = true ∧
    scan ['a'] = ScanResult.ok [Token.identifier "a"] ∧
    [Token.identifier "a"].getLast? ≠ some Token.endOfFile :=
  ⟨by decide, rfl, by decide⟩

/-- **C1** (amended) — for every source string containing only characters
of the recognized set, `scan` terminates (the fuel `text.length` the
model supplies is proved sufficient because every in-bounds `next_token`
step strictly advances the cursor), and the produced token sequence
contains no `EndOfFile` token at all: the trailing-`EndOfFile` append
sits in the branch `next_token` reaches only with the cursor at or past
the end of input, which `scan`'s loop guard `current < text.len()` rules
out. -/
theorem c1_scan_terminates_without_eof (text : List Char)
    (h : ∀ ch ∈ text, recognizedChar ch = true) :
    ∃ ts, scan text = ScanResult.ok ts ∧ Token.endOfFile ∉ ts := by
  obtain ⟨new, hloop, hno⟩ := scanLoop_total text.length
    ⟨text, 0, 1, []⟩ h (by simp)
  exact ⟨new, by simpa [scan] using hloop, hno⟩

/-- Witness for C1's amended statement on the recognized source
`var x = 1;`. -/
theorem c1_witness :
    (∀ ch ∈ "var x = 1;".data, recognizedChar ch = true) ∧
    ∃ ts, scan "var x = 1;".data = ScanResult.ok ts ∧
      Token.endOfFile ∉ ts :=
  ⟨by decide, c1_scan_terminates_without_eof "var x = 1;".data (by decide)⟩


end Reef
